import Mathlib

/-!
Shallow embedding of the session-persistence core of `src/components/ChatApp.tsx`
(types from `src/components/types.ts`).

Modelling conventions:
* JS strings are Lean `String`s (sequences of characters); roles are plain strings,
  matching the runtime representation ("user" / "assistant" in well-typed data).
* Raw (persisted, possibly malformed) data is modelled by `RawMessage` / `RawSession`:
  a missing or falsy string field is the empty string `""`; a possibly-`undefined`
  content is `Option String` (the source filter tests `message.content !== undefined`,
  so `undefined` content is distinct from `""`).
* A JS function that can throw is modelled with `Option` (`none` = exception).
  `sanitizeSessions` can throw: `deriveTitle` is applied to the unfiltered raw
  messages, and `firstUser.content.trim()` throws when that content is `undefined`.
* The browser key-value store is a value `Option (List ChatSession)`; each attempted
  `setItem` consumes one `WriteOutcome` describing whether it succeeds, throws a
  quota error, or throws some other error.
* `jsIsWs` models the JS whitespace class (used by both `trim()` and `/\s+/`);
  the claims are insensitive to the exact member set because the specification and
  the source use the same class.
-/

namespace Chat

structure ChatMessage where
  id : String
  role : String
  content : String
  createdAt : String
deriving DecidableEq, Repr

structure ChatSession where
  id : String
  title : String
  messages : List ChatMessage
  createdAt : String
  updatedAt : String
deriving DecidableEq, Repr

structure RawMessage where
  id : String
  role : String
  content : Option String
  createdAt : String
deriving DecidableEq, Repr

structure RawSession where
  id : String
  title : String
  messages : Option (List RawMessage)
  createdAt : String
  updatedAt : String
deriving DecidableEq, Repr

/-- Characters of the JS whitespace class (representative members). -/
def jsIsWs (c : Char) : Bool :=
  c = ' ' || c = '\t' || c = '\n' || c = '\r' ||
  c = '\x0b' || c = '\x0c' || c = ' ' || c = '﻿'

/-- List-level model of `String.prototype.trim`. -/
def trimL (l : List Char) : List Char :=
  ((l.dropWhile jsIsWs).reverse.dropWhile jsIsWs).reverse

/-- Model of `s.trim()`. -/
def jsTrim (s : String) : String :=
  String.mk (trimL s.data)

/-- Helper for `collapseL`: the flag records whether the previous character was
whitespace (so a run of whitespace emits a single space). -/
def collapseGo : Bool → List Char → List Char
  | _, [] => []
  | prevWs, c :: cs =>
    if jsIsWs c then
      if prevWs then collapseGo true cs else ' ' :: collapseGo true cs
    else
      c :: collapseGo false cs

/-- Model of `.replace(/\s+/g, " ")`: collapse each whitespace run to one space. -/
def collapseL (l : List Char) : List Char :=
  collapseGo false l

/-- Model of `content.trim().replace(/\s+/g, " ")` from `deriveTitle`. -/
def collapseTrim (c : String) : String :=
  String.mk (collapseL (trimL c.data))

/-- Model of the final truncation in `deriveTitle`:
`trimmed.length <= 45 ? trimmed : trimmed.slice(0, 45) + "…"`. -/
def clipTitle (t : String) : String :=
  if t.length ≤ 45 then t else String.mk (t.data.take 45 ++ ['…'])

/-- Source `deriveTitle` (ChatApp.tsx lines 61-71), on well-typed messages. -/
def deriveTitle (messages : List ChatMessage) : String :=
  match messages.find? (fun m => m.role == "user") with
  | none => "New chat"
  | some m => clipTitle (collapseTrim m.content)

/-- Source `deriveTitle` as invoked inside `sanitizeSessions` on raw (unfiltered)
messages; `none` models the TypeError thrown by `firstUser.content.trim()` when
the first user-role message has `undefined` content. -/
def deriveTitleRaw (messages : List RawMessage) : Option String :=
  match messages.find? (fun m => m.role == "user") with
  | none => some "New chat"
  | some m => m.content.map (fun c => clipTitle (collapseTrim c))

def MAX_SESSION_HISTORY : Nat := 75

/-- Model of `arr.slice(-n)` (for `n ≥ 1`): the last `n` elements. -/
def sliceLast (n : Nat) (l : List α) : List α :=
  l.drop (l.length - n)

/-- The per-session message truncation applied by `ensureCapacity`:
`{ ...session, messages: session.messages.slice(-200) }`. -/
def truncateMessages (s : ChatSession) : ChatSession :=
  { s with messages := sliceLast 200 s.messages }

/-- Source `ensureCapacity` (ChatApp.tsx lines 115-122). -/
def ensureCapacity (sessions : List ChatSession) : List ChatSession :=
  if sessions.length ≤ MAX_SESSION_HISTORY then sessions
  else (sliceLast MAX_SESSION_HISTORY sessions).map truncateMessages

/-- The message filter inside `sanitizeSessions`:
`message && message.id && message.role && message.content !== undefined`. -/
def msgKeep (m : RawMessage) : Bool :=
  m.id != "" && m.role != "" && m.content.isSome

/-- The per-message repair inside `sanitizeSessions`:
`{ ...message, createdAt: message.createdAt || new Date().toISOString() }`. -/
def sanitizeMessage (now : String) (m : RawMessage) : RawMessage :=
  { m with createdAt := if m.createdAt != "" then m.createdAt else now }

/-- The session filter inside `sanitizeSessions`:
`session && session.id && Array.isArray(session.messages)` (a `null` entry behaves
exactly like an id-less one: it is dropped). -/
def sessKeep (s : RawSession) : Bool :=
  s.id != "" && s.messages.isSome

/-- The per-session repair inside `sanitizeSessions` (ChatApp.tsx lines 101-112).
`none` models the exception from `deriveTitle` on a session with falsy title whose
first user-role raw message has `undefined` content. Note the source derives the
title from the UNfiltered `session.messages` but stores the filtered ones. -/
def sanitizeSession (now : String) (s : RawSession) : Option RawSession :=
  match s.messages with
  | none => none
  | some ms =>
    match (if s.title != "" then some s.title else deriveTitleRaw ms) with
    | none => none
    | some t =>
      some { id := s.id
             title := t
             createdAt := if s.createdAt != "" then s.createdAt else now
             updatedAt :=
               if s.updatedAt != "" then s.updatedAt
               else if s.createdAt != "" then s.createdAt else now
             messages := some ((ms.filter msgKeep).map (sanitizeMessage now)) }

/-- The `.map` over the filtered sessions, with exception propagation. -/
def sanitizeAll (now : String) : List RawSession → Option (List RawSession)
  | [] => some []
  | s :: rest =>
    match sanitizeSession now s with
    | none => none
    | some t => (sanitizeAll now rest).map (fun ts => t :: ts)

/-- Source `sanitizeSessions` (ChatApp.tsx lines 98-113). -/
def sanitizeSessions (now : String) (sessions : List RawSession) : Option (List RawSession) :=
  sanitizeAll now (sessions.filter sessKeep)

/-- Source `readFromStorage` (ChatApp.tsx lines 124-135). `parsed = none` models
a missing slot or a `JSON.parse` failure; the surrounding `try` also catches an
exception thrown by `sanitizeSessions`, returning `[]`. -/
def readFromStorage (now : String) (parsed : Option (List RawSession)) : List RawSession :=
  match parsed with
  | none => []
  | some l => (sanitizeSessions now l).getD []

/-- Outcome of one attempted `localStorage.setItem`. -/
inductive WriteOutcome
  | success
  | quotaError
  | otherError
deriving DecidableEq, Repr

/-- The retry loop of `persistToStorage` (ChatApp.tsx lines 140-151): each attempt
consumes one outcome; success stores the current payload, a quota error drops the
front element (`payload.slice(1)`) and retries, any other error stops with the
store unchanged; the loop also stops when the payload is empty. The result is the
store content after the call. -/
def persistLoop (store : Option (List ChatSession)) :
    List ChatSession → List WriteOutcome → Option (List ChatSession)
  | [], _ => store
  | _ :: _, [] => store
  | p :: ps, o :: os =>
    match o with
    | .success => some (p :: ps)
    | .otherError => store
    | .quotaError => persistLoop store ps os

/-- Source `persistToStorage` (ChatApp.tsx lines 137-152). -/
def persistToStorage (sessions : List ChatSession) (outcomes : List WriteOutcome)
    (store : Option (List ChatSession)) : Option (List ChatSession) :=
  persistLoop store (ensureCapacity sessions) outcomes

/-- Model of `s.toLowerCase()` (character-wise, locale-independent). -/
def lowerStr (s : String) : String :=
  String.mk (s.data.map Char.toLower)

/-- Helper: does `hay` start with `needle`? -/
def matchAt : List Char → List Char → Bool
  | [], _ => true
  | _ :: _, [] => false
  | n :: ns, h :: hs => n == h && matchAt ns hs

/-- Helper: does `needle` occur contiguously in `hay`? -/
def listHas (needle : List Char) : List Char → Bool
  | [] => matchAt needle []
  | h :: hs => matchAt needle (h :: hs) || listHas needle hs

/-- Model of `hay.includes(needle)`. -/
def strHas (hay needle : String) : Bool :=
  listHas needle.data hay.data

/-- The filter predicate of `filteredSessions`: the (already lowercased) needle is
a substring of the lowercased title or of some message's lowercased content. -/
def sessionMatches (needle : String) (s : ChatSession) : Bool :=
  strHas (lowerStr s.title) needle ||
  s.messages.any (fun m => strHas (lowerStr m.content) needle)

/-- Source `filteredSessions` (ChatApp.tsx lines 202-210). Note the emptiness test
uses the trimmed term but the needle is the UNtrimmed lowercased term. -/
def filteredSessions (searchTerm : String) (sessions : List ChatSession) : List ChatSession :=
  if jsTrim searchTerm = "" then sessions
  else sessions.filter (fun s => sessionMatches (lowerStr searchTerm) s)

/-- In-memory controller state: the session list plus the active-session pointer. -/
structure AppState where
  sessions : List ChatSession
  activeSessionId : Option String
deriving DecidableEq, Repr

/-- Source `createEmptySession` (ChatApp.tsx lines 73-82); the generated uuid and
the current ISO timestamp are parameters. -/
def createEmptySession (freshId now : String) : ChatSession :=
  { id := freshId
    title := "New chat"
    messages := []
    createdAt := now
    updatedAt := now }

/-- Source `handleDeleteSession` (ChatApp.tsx lines 300-319), as a pure transition
on `AppState`; `freshId`/`now` feed the possibly-synthesized fallback session. -/
def deleteSession (freshId now sid : String) (st : AppState) : AppState :=
  match st.sessions.filter (fun s => s.id != sid) with
  | [] =>
    let fallback := createEmptySession freshId now
    { sessions := [fallback], activeSessionId := some fallback.id }
  | r :: rs =>
    { sessions := r :: rs
      activeSessionId :=
        if st.activeSessionId = some sid then some r.id else st.activeSessionId }

/-- Source `updateSessionMessages` (ChatApp.tsx lines 321-337). -/
def updateSessionMessages (now sid : String) (updater : List ChatMessage → List ChatMessage)
    (sessions : List ChatSession) : List ChatSession :=
  sessions.map fun s =>
    if s.id != sid then s
    else
      let next := updater s.messages
      { s with messages := next, title := deriveTitle next, updatedAt := now }

/-- `appendMessage`: the way `handleSend` uses `updateSessionMessages`, appending
one message to the target session. -/
def appendMessage (now sid : String) (m : ChatMessage) (sessions : List ChatSession) :
    List ChatSession :=
  updateSessionMessages now sid (fun ms => ms ++ [m]) sessions

/-- Lexicographic strict order on character lists (by code point). -/
def charListLt : List Char → List Char → Bool
  | [], [] => false
  | [], _ :: _ => true
  | _ :: _, [] => false
  | a :: as, b :: bs => a < b || (a == b && charListLt as bs)

/-- Lexicographic strict order on strings. -/
def strLtB (a b : String) : Bool :=
  charListLt a.data b.data

/-- Claim-side ordering predicate: the collection is ordered newest-created first
(strictly decreasing `createdAt`). -/
def newestFirstB : List ChatSession → Bool
  | [] => true
  | [_] => true
  | a :: b :: rest => strLtB b.createdAt a.createdAt && newestFirstB (b :: rest)

/-- Concrete session used in counterexamples/witnesses: distinct ids and strictly
decreasing creation timestamps along `n`. -/
def cxSession (n : Nat) : ChatSession :=
  { id := String.mk [Char.ofNat (48 + n)]
    title := "t"
    messages := []
    createdAt := String.mk [Char.ofNat (200 - n)]
    updatedAt := "u" }

/-- A 76-session collection, ordered newest-created first. -/
def cxSessions : List ChatSession :=
  (List.range 76).map cxSession

/-- Concrete well-typed session with a user message, for witnesses. -/
def exSession : ChatSession :=
  { id := "a"
    title := "Alpha"
    messages := [⟨"m", "user", "Hello there", "d"⟩]
    createdAt := "c"
    updatedAt := "u" }

/-- A message whose content happens to equal the default title. -/
def cxMsgNewChat : ChatMessage :=
  ⟨"1", "user", "New chat", "t"⟩

/-- Raw session whose stored title is empty and whose first user-role raw message
is malformed (empty id, whitespace content) but is still the one `deriveTitle`
sees; a second well-formed user message follows. -/
def cxRawA : RawSession :=
  { id := "s1"
    title := ""
    messages := some [⟨"", "user", some " ", "d"⟩, ⟨"2", "user", some "Hi", "d2"⟩]
    createdAt := "c"
    updatedAt := "u" }

/-- Raw session with empty stored title and a single user message whose content is
whitespace only. -/
def cxRawB : RawSession :=
  { id := "s"
    title := ""
    messages := some [⟨"m", "user", some " ", "d"⟩]
    createdAt := "c"
    updatedAt := "u" }

/-- Raw session on which `sanitizeSessions` throws: falsy title and a first
user-role message with `undefined` content. -/
def cxRawC : RawSession :=
  { id := "s1"
    title := ""
    messages := some [⟨"m", "user", none, "d"⟩]
    createdAt := "c"
    updatedAt := "u" }

/-- Raw session list that is entirely well-formed. -/
def exRawList : List RawSession :=
  [{ id := "w"
     title := "Hi"
     messages := some [⟨"m", "user", some "Hello", "d"⟩]
     createdAt := "c"
     updatedAt := "u" }]

theorem length_sliceLast (n : Nat) (l : List α) :
    (sliceLast n l).length = l.length - (l.length - n) := by
  simp [sliceLast]

theorem ensureCapacity_length_le (S : List ChatSession) :
    (ensureCapacity S).length ≤ MAX_SESSION_HISTORY := by
  by_cases h : S.length ≤ MAX_SESSION_HISTORY
  · simp only [ensureCapacity, if_pos h]; exact h
  · simp [ensureCapacity, h, length_sliceLast]
    omega

theorem ensureCapacity_eq_self_of_le {S : List ChatSession}
    (h : S.length ≤ MAX_SESSION_HISTORY) : ensureCapacity S = S := by
  simp [ensureCapacity, h]

/-- C10: `ensureCapacity` is idempotent: a first application brings the session
count to at most 75, so a second application returns its input unchanged. -/
theorem claimC10_ensureCapacity_idempotent (S : List ChatSession) :
    ensureCapacity (ensureCapacity S) = ensureCapacity S :=
  ensureCapacity_eq_self_of_le (ensureCapacity_length_le S)

/-- C1 (amended): `ensureCapacity` yields length at most 75, and when the input
has more than 75 sessions it keeps exactly the positional suffix of length 75
(dropping front entries, which are the newest-created under the newest-first
ordering), truncating each kept session's message list to its last 200 entries. -/
theorem claimC1_ensureCapacity_amended (S : List ChatSession) :
    (ensureCapacity S).length ≤ MAX_SESSION_HISTORY ∧
    (MAX_SESSION_HISTORY < S.length →
      ensureCapacity S = (S.drop (S.length - MAX_SESSION_HISTORY)).map truncateMessages) := by
  refine ⟨ensureCapacity_length_le S, fun h => ?_⟩
  have h' : ¬ S.length ≤ MAX_SESSION_HISTORY := by omega
  simp [ensureCapacity, h', sliceLast]

/-- C1 (counterexample): a 76-session collection ordered newest-created first on
which `ensureCapacity` does not keep the most-recently-created 75 sessions (the
take-75 prefix under that ordering): it keeps the suffix instead. -/
theorem claimC1_counterexample :
    newestFirstB cxSessions = true ∧
    MAX_SESSION_HISTORY < cxSessions.length ∧
    ensureCapacity cxSessions ≠
      (cxSessions.take MAX_SESSION_HISTORY).map truncateMessages := by
  refine ⟨by decide, by decide, by decide⟩

/-- C1 (witness): the amended theorem applied at the concrete 76-session input. -/
theorem claimC1_witness :
    (ensureCapacity cxSessions).length ≤ MAX_SESSION_HISTORY ∧
    ensureCapacity cxSessions =
      (cxSessions.drop (cxSessions.length - MAX_SESSION_HISTORY)).map truncateMessages :=
  ⟨(claimC1_ensureCapacity_amended cxSessions).1,
   (claimC1_ensureCapacity_amended cxSessions).2 (by decide)⟩

theorem persistLoop_result (P : List ChatSession) :
    ∀ (os : List WriteOutcome) (store : Option (List ChatSession)),
      persistLoop store P os = store ∨
      ∃ k, persistLoop store P os = some (P.drop k) := by
  induction P with
  | nil => intro os store; left; rfl
  | cons p ps ih =>
    intro os store
    cases os with
    | nil => left; rfl
    | cons o os' =>
      cases o with
      | success => right; exact ⟨0, rfl⟩
      | otherError => left; rfl
      | quotaError =>
        rcases ih os' store with h | ⟨k, hk⟩
        · left; simp [persistLoop]; exact h
        · right; exact ⟨k + 1, by simp only [persistLoop, List.drop_succ_cons]; exact hk⟩

/-- C3: `persistToStorage` first applies capacity enforcement; each attempt
consumes one outcome; a successful write stores the current payload and stops, a
quota error evicts the front element and retries, any other error stops at once
with the store unchanged, and the loop stops when the payload is empty —
consequently the final store is either unchanged or holds a suffix of the
capacity-limited payload. -/
theorem claimC3_persistToStorage (store : Option (List ChatSession)) :
    (∀ os, persistLoop store [] os = store) ∧
    (∀ (p : ChatSession) ps os,
      persistLoop store (p :: ps) (WriteOutcome.success :: os) = some (p :: ps)) ∧
    (∀ (p : ChatSession) ps os,
      persistLoop store (p :: ps) (WriteOutcome.otherError :: os) = store) ∧
    (∀ (p : ChatSession) ps os,
      persistLoop store (p :: ps) (WriteOutcome.quotaError :: os) = persistLoop store ps os) ∧
    (∀ S os, persistToStorage S os store = persistLoop store (ensureCapacity S) os) ∧
    (∀ S os, persistToStorage S os store = store ∨
      ∃ k, persistToStorage S os store = some ((ensureCapacity S).drop k)) := by
  refine ⟨fun os => rfl, fun p ps os => rfl, fun p ps os => rfl, fun p ps os => rfl,
    fun S os => rfl, fun S os => ?_⟩
  exact persistLoop_result (ensureCapacity S) os store

/-- C2 (amended): `deriveTitle` returns "New chat" if the messages contain no
user-role message; in every case the result has length at most 46; and when a
first user-role message exists the result is its trimmed, whitespace-collapsed
content, returned whole when at most 45 characters long and otherwise truncated
to its 45-character prefix followed by an ellipsis (so the result may
coincidentally equal "New chat" when a user message has that content). -/
theorem claimC2_deriveTitle_amended (M : List ChatMessage) :
    ((∀ m ∈ M, ¬ m.role = "user") → deriveTitle M = "New chat") ∧
    (deriveTitle M).length ≤ 46 ∧
    (∀ m, M.find? (fun x => x.role == "user") = some m →
      deriveTitle M = clipTitle (collapseTrim m.content) ∧
      ((collapseTrim m.content).length ≤ 45 → deriveTitle M = collapseTrim m.content) ∧
      (45 < (collapseTrim m.content).length →
        deriveTitle M = String.mk ((collapseTrim m.content).data.take 45 ++ ['…']))) := by
  refine ⟨?_, ?_, ?_⟩
  · intro h
    have hf : M.find? (fun x => x.role == "user") = none := by
      rw [List.find?_eq_none]
      intro x hx
      simpa using h x hx
    simp [deriveTitle, hf]
  · cases hf : M.find? (fun x => x.role == "user") with
    | none =>
      simp only [deriveTitle, hf]
      decide
    | some m =>
      simp only [deriveTitle, hf]
      by_cases h : (collapseTrim m.content).length ≤ 45
      · simp only [clipTitle, if_pos h]
        omega
      · simp only [clipTitle, if_neg h]
        show (((collapseTrim m.content).data.take 45) ++ ['…']).length ≤ 46
        simp [List.length_append]
  · intro m hf
    refine ⟨by simp [deriveTitle, hf], fun h => ?_, fun h => ?_⟩
    · simp [deriveTitle, hf, clipTitle, h]
    · have h' : ¬ (collapseTrim m.content).length ≤ 45 := by omega
      simp [deriveTitle, hf, clipTitle, h']

/-- C2 (counterexample): a message list that does contain a user-role message but
on which `deriveTitle` still returns "New chat" (the user content is literally
"New chat"), refuting the claimed "if and only if". -/
theorem claimC2_counterexample :
    deriveTitle [cxMsgNewChat] = "New chat" ∧ ∃ m ∈ [cxMsgNewChat], m.role = "user" :=
  ⟨by decide, cxMsgNewChat, by decide, by decide⟩

/-- C2 (witness): the amended theorem applied to a concrete one-user-message list. -/
theorem claimC2_witness :
    deriveTitle [(⟨"m", "user", "Hello there", "d"⟩ : ChatMessage)] =
      collapseTrim "Hello there" :=
  ((claimC2_deriveTitle_amended _).2.2 ⟨"m", "user", "Hello there", "d"⟩
    (by decide)).2.1 (by decide)

/-- C6: `filteredSessions` returns the full collection when the term trims to
empty; otherwise it keeps, in original order (a sublist of the input), exactly
the sessions whose lowercased title or some message's lowercased content has the
lowercased term as a substring; a term matching nothing yields the empty list. -/
theorem claimC6_filteredSessions (term : String) (S : List ChatSession) :
    (jsTrim term = "" → filteredSessions term S = S) ∧
    List.Sublist (filteredSessions term S) S ∧
    (jsTrim term ≠ "" →
      ∀ s, s ∈ filteredSessions term S ↔
        s ∈ S ∧ sessionMatches (lowerStr term) s = true) ∧
    (jsTrim term ≠ "" → (∀ s ∈ S, sessionMatches (lowerStr term) s = false) →
      filteredSessions term S = []) := by
  refine ⟨fun h => by simp [filteredSessions, h], ?_, fun h s => ?_, fun h hall => ?_⟩
  · by_cases h : jsTrim term = ""
    · simp [filteredSessions, h]
    · simp only [filteredSessions, if_neg h]
      exact List.filter_sublist S
  · simp [filteredSessions, h, List.mem_filter]
  · simp only [filteredSessions, if_neg h]
    rw [List.filter_eq_nil_iff]
    intro a ha
    simp [hall a ha]

/-- C6 (witness): a whitespace-only term returns the collection unfiltered, and a
term matching no title or content returns the empty list. -/
theorem claimC6_witness :
    filteredSessions "  " [exSession] = [exSession] ∧
    filteredSessions "zzz" [exSession] = [] :=
  ⟨(claimC6_filteredSessions "  " [exSession]).1 (by decide),
   (claimC6_filteredSessions "zzz" [exSession]).2.2.2 (by decide) (by decide)⟩

/-- C9: `readFromStorage` never throws: an absent slot or a parse failure yields
the empty list; when parsing succeeds and sanitization succeeds it returns the
sanitized sessions; when sanitization itself throws (falsy title together with an
undefined-content first user message) the surrounding catch also yields `[]`. -/
theorem claimC9_readFromStorage (now : String) (parsed : Option (List RawSession)) :
    (parsed = none → readFromStorage now parsed = []) ∧
    (∀ l T, parsed = some l → sanitizeSessions now l = some T →
      readFromStorage now parsed = T) ∧
    (∀ l, parsed = some l → sanitizeSessions now l = none →
      readFromStorage now parsed = []) := by
  refine ⟨fun h => ?_, fun l T h1 h2 => ?_, fun l h1 h2 => ?_⟩
  · subst h; rfl
  · subst h1; simp [readFromStorage, h2]
  · subst h1; simp [readFromStorage, h2]

/-- C9 (witness): a well-formed stored list is returned sanitized (here it is
already a fixed point), and a list on which sanitization throws yields `[]`. -/
theorem claimC9_witness :
    readFromStorage "N" (some exRawList) = exRawList ∧
    readFromStorage "N" (some [cxRawC]) = [] :=
  ⟨(claimC9_readFromStorage "N" (some exRawList)).2.1 exRawList exRawList rfl (by decide),
   (claimC9_readFromStorage "N" (some [cxRawC])).2.2 [cxRawC] rfl (by decide)⟩

/-- C7: `deleteSession` removes every session with the given id; if the filtered
collection is empty a single fresh empty session is synthesized and made active;
if the removed session was the active one and others remain, the first remaining
session becomes active, otherwise the active pointer is untouched; the surviving
sessions are exactly the untouched ones. -/
theorem claimC7_deleteSession (freshId now sid : String) (st : AppState) :
    (st.sessions.filter (fun s => s.id != sid) = [] →
      (deleteSession freshId now sid st).sessions = [createEmptySession freshId now] ∧
      (deleteSession freshId now sid st).activeSessionId = some freshId) ∧
    (∀ r rs, st.sessions.filter (fun s => s.id != sid) = r :: rs →
      (deleteSession freshId now sid st).sessions = r :: rs ∧
      (st.activeSessionId = some sid →
        (deleteSession freshId now sid st).activeSessionId = some r.id) ∧
      (st.activeSessionId ≠ some sid →
        (deleteSession freshId now sid st).activeSessionId = st.activeSessionId)) ∧
    (∀ s ∈ (deleteSession freshId now sid st).sessions,
      s ∈ st.sessions ∨ s = createEmptySession freshId now) ∧
    (∀ s ∈ st.sessions, s.id ≠ sid → s ∈ (deleteSession freshId now sid st).sessions) := by
  refine ⟨fun h => ?_, fun r rs h => ?_, fun s hs => ?_, fun s hs hid => ?_⟩
  · simp [deleteSession, h, createEmptySession]
  · refine ⟨by simp [deleteSession, h], fun ha => ?_, fun ha => ?_⟩
    · simp [deleteSession, h, ha]
    · simp [deleteSession, h, ha]
  · cases hf : st.sessions.filter (fun s => s.id != sid) with
    | nil =>
      right
      simp only [deleteSession, hf] at hs
      simpa using hs
    | cons r rs =>
      left
      have hmem : s ∈ st.sessions.filter (fun s => s.id != sid) := by
        rw [hf]
        simpa [deleteSession, hf] using hs
      exact List.mem_of_mem_filter hmem
  · have hmem : s ∈ st.sessions.filter (fun t => t.id != sid) := by
      rw [List.mem_filter]
      exact ⟨hs, by simpa using hid⟩
    cases hf : st.sessions.filter (fun t => t.id != sid) with
    | nil =>
      rw [hf] at hmem
      simp at hmem
    | cons r rs =>
      rw [hf] at hmem
      simpa [deleteSession, hf] using hmem

/-- C7 (witness): deleting the only existing session leaves exactly one fresh
empty session, which is active. -/
theorem claimC7_witness :
    (deleteSession "f" "n" "a" ⟨[exSession], some "a"⟩).sessions =
      [createEmptySession "f" "n"] ∧
    (deleteSession "f" "n" "a" ⟨[exSession], some "a"⟩).activeSessionId = some "f" :=
  (claimC7_deleteSession "f" "n" "a" ⟨[exSession], some "a"⟩).1 (by decide)

theorem updateSessionMessages_no_match (now sid : String)
    (u : List ChatMessage → List ChatMessage) (S : List ChatSession)
    (h : ∀ s ∈ S, ¬ s.id = sid) : updateSessionMessages now sid u S = S := by
  induction S with
  | nil => rfl
  | cons a l ih =>
    have ha : (a.id != sid) = true := by simpa using h a (by simp)
    have h2 : updateSessionMessages now sid u l = l := ih fun s hs => h s (by simp [hs])
    simp only [updateSessionMessages, List.map_cons] at h2 ⊢
    rw [h2]
    simp [ha]

/-- C8: `appendMessage` (via `updateSessionMessages`) is a total function that
leaves the collection exactly unchanged when no session has the target id; it
preserves the length, leaves every session with a different id untouched, and on
the session with the matching id appends the message, recomputes the title from
the new message list, and refreshes `updatedAt`. -/
theorem claimC8_appendMessage (now sid : String) (m : ChatMessage) (S : List ChatSession) :
    ((∀ s ∈ S, ¬ s.id = sid) → appendMessage now sid m S = S) ∧
    (appendMessage now sid m S).length = S.length ∧
    (∀ (i : Nat) (s : ChatSession), S[i]? = some s →
      (¬ s.id = sid → (appendMessage now sid m S)[i]? = some s) ∧
      (s.id = sid → (appendMessage now sid m S)[i]? =
        some { s with
               messages := s.messages ++ [m]
               title := deriveTitle (s.messages ++ [m])
               updatedAt := now })) := by
  refine ⟨fun h => updateSessionMessages_no_match now sid _ S h, ?_, fun i s hi => ?_⟩
  · simp [appendMessage, updateSessionMessages]
  · have hmap : (appendMessage now sid m S)[i]? =
        S[i]?.map (fun s =>
          if s.id != sid then s
          else { s with
                 messages := s.messages ++ [m]
                 title := deriveTitle (s.messages ++ [m])
                 updatedAt := now }) := by
      simp [appendMessage, updateSessionMessages, List.getElem?_map]
    refine ⟨fun hns => ?_, fun hyes => ?_⟩
    · rw [hmap, hi]
      simp [hns]
    · rw [hmap, hi]
      simp [hyes]

/-- C8 (witness): appending with an id matching no session returns the
collection unchanged, and appending to the matching session appends the message,
rederives the title and refreshes the update timestamp. -/
theorem claimC8_witness :
    appendMessage "n2" "zz" ⟨"m2", "assistant", "Reply", "d2"⟩ [exSession] = [exSession] ∧
    (appendMessage "n2" "a" ⟨"m2", "assistant", "Reply", "d2"⟩ [exSession])[0]? =
      some { exSession with
             messages := exSession.messages ++ [⟨"m2", "assistant", "Reply", "d2"⟩]
             title := deriveTitle (exSession.messages ++ [⟨"m2", "assistant", "Reply", "d2"⟩])
             updatedAt := "n2" } :=
  ⟨(claimC8_appendMessage "n2" "zz" ⟨"m2", "assistant", "Reply", "d2"⟩ [exSession]).1
    (by decide),
   ((claimC8_appendMessage "n2" "a" ⟨"m2", "assistant", "Reply", "d2"⟩ [exSession]).2.2
      0 exSession (by decide)).2 (by decide)⟩

theorem sanitizeAll_mem (now : String) :
    ∀ (l T : List RawSession), sanitizeAll now l = some T →
      ∀ t ∈ T, ∃ s ∈ l, sanitizeSession now s = some t := by
  intro l
  induction l with
  | nil =>
    intro T hT t ht
    simp only [sanitizeAll, Option.some.injEq] at hT
    subst hT
    simp at ht
  | cons s rest ih =>
    intro T hT t ht
    simp only [sanitizeAll] at hT
    cases hs : sanitizeSession now s with
    | none => rw [hs] at hT; simp at hT
    | some t0 =>
      rw [hs] at hT
      cases hr : sanitizeAll now rest with
      | none => rw [hr] at hT; simp at hT
      | some T' =>
        rw [hr] at hT
        simp only [Option.map, Option.some.injEq] at hT
        subst hT
        rcases List.mem_cons.mp ht with h | h
        · exact ⟨s, by simp, h ▸ hs⟩
        · rcases ih T' hr t h with ⟨s', hs', h2⟩
          exact ⟨s', by simp [hs'], h2⟩

theorem sanitizeSession_title_iff (now : String) (s t : RawSession)
    (h : sanitizeSession now s = some t) :
    (t.title = "" ↔
      s.title = "" ∧ ∃ ms, s.messages = some ms ∧ deriveTitleRaw ms = some "") := by
  unfold sanitizeSession at h
  cases hm : s.messages with
  | none => rw [hm] at h; simp at h
  | some ms =>
    rw [hm] at h
    dsimp only at h
    by_cases ht : (s.title != "") = true
    · rw [if_pos ht] at h
      simp only [Option.some.injEq] at h
      subst h
      have hne : ¬ s.title = "" := by simpa using ht
      simp [hne]
    · rw [if_neg ht] at h
      have hte : s.title = "" := by simpa using ht
      cases hd : deriveTitleRaw ms with
      | none => rw [hd] at h; simp at h
      | some d =>
        rw [hd] at h
        simp only [Option.some.injEq] at h
        subst h
        constructor
        · intro hdd
          have hdd' : d = "" := hdd
          exact ⟨hte, ms, rfl, by rw [hd, hdd']⟩
        · rintro ⟨-, ms', hms', hd'⟩
          injection hms' with hh
          subst hh
          exact Option.some.inj (hd.symm.trans hd')

/-- C4 (amended): every session in the output of sanitize traces back to an
input session it was produced from, and its title is the empty string exactly
when that input session's stored title was empty AND title derivation over the
raw (unfiltered) message list yields the empty string — i.e. the first user-role
raw message has whitespace-only or empty content. In every other case (in
particular whenever there is no user-role raw message, where the derived title is
"New chat") the output title is non-empty. -/
theorem claimC4_sanitize_title_amended (now : String) (S T : List RawSession)
    (h : sanitizeSessions now S = some T) :
    ∀ t ∈ T, ∃ s ∈ S, sanitizeSession now s = some t ∧
      (t.title = "" ↔
        s.title = "" ∧ ∃ ms, s.messages = some ms ∧ deriveTitleRaw ms = some "") := by
  intro t ht
  rcases sanitizeAll_mem now (S.filter sessKeep) T h t ht with ⟨s, hsmem, hs⟩
  exact ⟨s, List.mem_of_mem_filter hsmem, hs, sanitizeSession_title_iff now s t hs⟩

/-- C4 (counterexample): a raw session with empty stored title whose only (well
formed) user message has whitespace-only content; sanitize keeps it unchanged,
so the output contains a session whose title is the empty string. -/
theorem claimC4_counterexample :
    sanitizeSessions "N" [cxRawB] = some [cxRawB] ∧ cxRawB.title = "" :=
  ⟨by decide, rfl⟩

/-- C4 (witness): the amended theorem applied at the concrete input. -/
theorem claimC4_witness :
    ∃ s ∈ [cxRawB], sanitizeSession "N" s = some cxRawB ∧
      (cxRawB.title = "" ↔
        s.title = "" ∧ ∃ ms, s.messages = some ms ∧ deriveTitleRaw ms = some "") :=
  claimC4_sanitize_title_amended "N" [cxRawB] [cxRawB] (by decide) cxRawB (by decide)

theorem sanitizeMessage_fix (now : String) (m : RawMessage) :
    sanitizeMessage now (sanitizeMessage now m) = sanitizeMessage now m := by
  by_cases h : (m.createdAt != "") = true
  · simp [sanitizeMessage, h]
  · simp [sanitizeMessage, h]

theorem msgKeep_sanitizeMessage (now : String) (m : RawMessage) :
    msgKeep (sanitizeMessage now m) = msgKeep m := rfl

theorem find?_user_map_fill (now : String) (ms : List RawMessage) :
    (ms.map (sanitizeMessage now)).find? (fun m => m.role == "user") =
      (ms.find? (fun m => m.role == "user")).map (sanitizeMessage now) := by
  induction ms with
  | nil => rfl
  | cons m rest ih =>
    cases h : (m.role == "user") with
    | true =>
      simp only [List.map_cons, List.find?]
      rw [show (sanitizeMessage now m).role = m.role from rfl, h]
      rfl
    | false =>
      simp only [List.map_cons, List.find?]
      rw [show (sanitizeMessage now m).role = m.role from rfl, h]
      dsimp only
      exact ih

theorem deriveTitleRaw_map_fill (now : String) (ms : List RawMessage) :
    deriveTitleRaw (ms.map (sanitizeMessage now)) = deriveTitleRaw ms := by
  unfold deriveTitleRaw
  rw [find?_user_map_fill]
  cases hf : ms.find? (fun m => m.role == "user") with
  | none => rfl
  | some m => rfl

theorem deriveTitleRaw_isSome (ms : List RawMessage)
    (h : ∀ m ∈ ms, msgKeep m = true) : ∃ d, deriveTitleRaw ms = some d := by
  unfold deriveTitleRaw
  cases hf : ms.find? (fun m => m.role == "user") with
  | none => exact ⟨"New chat", rfl⟩
  | some m =>
    have hm := List.mem_of_find?_eq_some hf
    have hk := h m hm
    simp only [msgKeep, Bool.and_eq_true] at hk
    rcases Option.isSome_iff_exists.mp hk.2 with ⟨c, hc⟩
    exact ⟨clipTitle (collapseTrim c), by dsimp only; rw [hc]; rfl⟩

theorem fillOnce_stable (a b : String) :
    (if ((if (a != "") = true then a else b) != "") = true
      then (if (a != "") = true then a else b) else b)
      = (if (a != "") = true then a else b) := by
  by_cases h : (a != "") = true
  · simp [h]
  · simp [h]

theorem fillUpd_stable (u c n : String) :
    (if ((if (u != "") = true then u
          else if (c != "") = true then c else n) != "") = true
      then (if (u != "") = true then u else if (c != "") = true then c else n)
      else if (c != "") = true then c else n)
      = (if (u != "") = true then u else if (c != "") = true then c else n) := by
  by_cases hu : (u != "") = true <;> by_cases hc : (c != "") = true <;>
    by_cases hn : (n != "") = true <;> simp [hu, hc, hn]

theorem sanitizeSession_fixpoint (now : String) (s : RawSession)
    (hs : sessKeep s = true)
    (hm : ∀ ms, s.messages = some ms → ∀ m ∈ ms, msgKeep m = true) :
    ∃ t, sanitizeSession now s = some t ∧ sessKeep t = true ∧
      (∀ ms, t.messages = some ms → ∀ m ∈ ms, msgKeep m = true) ∧
      sanitizeSession now t = some t := by
  simp only [sessKeep, Bool.and_eq_true] at hs
  rcases Option.isSome_iff_exists.mp hs.2 with ⟨ms, hms⟩
  have hall : ∀ m ∈ ms, msgKeep m = true := hm ms hms
  have hfilter : ms.filter msgKeep = ms := List.filter_eq_self.mpr hall
  have hallfill : ∀ m ∈ ms.map (sanitizeMessage now), msgKeep m = true := by
    intro m hmem
    rcases List.mem_map.mp hmem with ⟨m0, hm0, rfl⟩
    rw [msgKeep_sanitizeMessage]
    exact hall m0 hm0
  have hfilter1 : (ms.map (sanitizeMessage now)).filter msgKeep = ms.map (sanitizeMessage now) :=
    List.filter_eq_self.mpr hallfill
  have hmapfix : (ms.map (sanitizeMessage now)).map (sanitizeMessage now) =
      ms.map (sanitizeMessage now) := by
    rw [List.map_map]
    exact List.map_congr_left fun m _ => sanitizeMessage_fix now m
  obtain ⟨d, hd⟩ := deriveTitleRaw_isSome ms hall
  by_cases ht : (s.title != "") = true
  · refine ⟨{ id := s.id
              title := s.title
              messages := some (ms.map (sanitizeMessage now))
              createdAt := if (s.createdAt != "") = true then s.createdAt else now
              updatedAt := if (s.updatedAt != "") = true then s.updatedAt
                else if (s.createdAt != "") = true then s.createdAt else now }, ?_, ?_, ?_, ?_⟩
    · unfold sanitizeSession
      rw [hms]
      dsimp only
      rw [if_pos ht, hfilter]
    · simp [sessKeep, hs.1]
    · intro ms' hms' m hmem
      injection hms' with hh
      subst hh
      exact hallfill m hmem
    · unfold sanitizeSession
      dsimp only
      rw [if_pos ht]
      dsimp only
      rw [hfilter1, hmapfix, fillOnce_stable, fillUpd_stable]
  · refine ⟨{ id := s.id
              title := d
              messages := some (ms.map (sanitizeMessage now))
              createdAt := if (s.createdAt != "") = true then s.createdAt else now
              updatedAt := if (s.updatedAt != "") = true then s.updatedAt
                else if (s.createdAt != "") = true then s.createdAt else now }, ?_, ?_, ?_, ?_⟩
    · unfold sanitizeSession
      rw [hms]
      dsimp only
      rw [if_neg ht, hd, hfilter]
    · simp [sessKeep, hs.1]
    · intro ms' hms' m hmem
      injection hms' with hh
      subst hh
      exact hallfill m hmem
    · unfold sanitizeSession
      dsimp only
      by_cases hdt : (d != "") = true
      · rw [if_pos hdt]
        dsimp only
        rw [hfilter1, hmapfix, fillOnce_stable, fillUpd_stable]
      · rw [if_neg hdt, deriveTitleRaw_map_fill, hd]
        dsimp only
        rw [hfilter1, hmapfix, fillOnce_stable, fillUpd_stable]

theorem sanitizeAll_fixpoint (now : String) :
    ∀ l : List RawSession,
      (∀ s ∈ l, sessKeep s = true) →
      (∀ s ∈ l, ∀ ms, s.messages = some ms → ∀ m ∈ ms, msgKeep m = true) →
      ∃ T, sanitizeAll now l = some T ∧ (∀ t ∈ T, sessKeep t = true) ∧
        sanitizeAll now T = some T := by
  intro l
  induction l with
  | nil => exact fun _ _ => ⟨[], rfl, by simp, rfl⟩
  | cons s rest ih =>
    intro hk hm
    obtain ⟨t, ht, htk, htm, htfix⟩ :=
      sanitizeSession_fixpoint now s (hk s (by simp)) (hm s (by simp))
    obtain ⟨T', hT', hTk, hTfix⟩ :=
      ih (fun x hx => hk x (by simp [hx])) (fun x hx => hm x (by simp [hx]))
    refine ⟨t :: T', ?_, ?_, ?_⟩
    · simp [sanitizeAll, ht, hT']
    · intro x hx
      rcases List.mem_cons.mp hx with h | h
      · exact h ▸ htk
      · exact hTk x h
    · simp [sanitizeAll, htfix, hTfix]

/-- C5 (amended): sanitize is idempotent on raw session lists all of whose
messages are well-formed (non-empty id and role, defined content); in general a
second pass can change a session whose first pass left an empty title, because
the title is derived from the unfiltered raw messages while the stored messages
are filtered, and the second pass rederives from the filtered list. -/
theorem claimC5_sanitize_idempotent_amended (now : String) (S : List RawSession)
    (h : ∀ s ∈ S, ∀ ms, s.messages = some ms → ∀ m ∈ ms, msgKeep m = true) :
    ∃ T, sanitizeSessions now S = some T ∧ sanitizeSessions now T = some T := by
  obtain ⟨T, hT, hTk, hTfix⟩ := sanitizeAll_fixpoint now (S.filter sessKeep)
    (fun s hs => (List.mem_filter.mp hs).2)
    (fun s hs => h s (List.mem_of_mem_filter hs))
  refine ⟨T, hT, ?_⟩
  unfold sanitizeSessions
  rw [List.filter_eq_self.mpr hTk]
  exact hTfix

/-- C5 (counterexample): a fixed time and a raw session (empty stored title; a
malformed first user message with whitespace content followed by a well-formed
user message) on which sanitize∘sanitize differs from sanitize: the first pass
stores title "" and drops the malformed message, the second derives "Hi". -/
theorem claimC5_counterexample :
    (sanitizeSessions "T" [cxRawA]).bind (sanitizeSessions "T") ≠
      sanitizeSessions "T" [cxRawA] := by
  decide

/-- C5 (witness): the amended idempotence theorem applied to a concrete
well-formed raw session list. -/
theorem claimC5_witness :
    ∃ T, sanitizeSessions "N" exRawList = some T ∧ sanitizeSessions "N" T = some T :=
  claimC5_sanitize_idempotent_amended "N" exRawList (by decide)

end Chat
